import Mathlib

/-!
Verification of the dynamic-mcp-server tool registry and dispatch logic.

The development shallowly embeds the two server implementations of the
repository:

* `src/dynamicMcpServer.js` (namespace `DMS`) — the unlock-on-first-tool
  server: it starts with only the `greet` tool and unlocks `calculate`,
  `get_status` and `followup` after the first `greet` call.
* `src/index.js` (namespace `IDX`) — the sliding-window server: every call
  mints a `followup_<Date.now()>` tool, prunes minted follow-ups to the last
  three by lexicographic sort of their names, and adds milestone / history
  tools on counts divisible by 5 / 3.

Modelling conventions:

* A JS `Map` is a `List (String × α)` in insertion order: `mapSet` replaces
  in place or appends, `mapDelete` removes the unique entry, `mapGet` finds
  the entry.
* A tool handler is a function from a read-only view of the server
  (`ServerView`: the fields of `this` that the handlers read) and the
  argument object to `Except String ToolResult`; a JS exception thrown by
  the handler corresponds to `.error`.
* `Date.now()` is an external input, passed to the dispatcher as `now`.
* The `server.notification(...)` side effect is logged in `ServerState.sent`;
  an entry records one emission attempt: `true` when delivery succeeded and
  `false` when it failed and was swallowed by the `catch` in
  `notifyToolsChanged`.
* `console.error` logging is not modelled.
* JS numbers are modelled as exact rationals; every concrete value evaluated
  by a claim here is a small integer, where IEEE-754 double arithmetic
  agrees exactly with rational arithmetic.
-/

/-- Lexicographic comparison of char lists by code point, the order JS uses
when comparing strings with `<` and inside the default `Array.sort()`
comparator (identical to UTF-16 order on the ASCII names used here). -/
def charListLt : List Char → List Char → Bool
  | [], [] => false
  | [], _ :: _ => true
  | _ :: _, [] => false
  | a :: as, b :: bs =>
    if a.toNat < b.toNat then true
    else if b.toNat < a.toNat then false
    else charListLt as bs

/-- JS string comparison `a < b`. -/
def jsStrLt (a b : String) : Bool := charListLt a.data b.data

/-- Boolean list-prefix test (first argument is the candidate prefix). -/
def isLeadOf : List Char → List Char → Bool
  | [], _ => true
  | _ :: _, [] => false
  | a :: as, b :: bs => if a = b then isLeadOf as bs else false

/-- JS `s.startsWith(pre)`. -/
def jsStartsWith (s pre : String) : Bool := isLeadOf pre.data s.data

/-- Insert a string into a list so that the result of `jsSort` is ascending
under JS string comparison. -/
def sortInsert (x : String) : List String → List String
  | [] => [x]
  | y :: ys => if jsStrLt y x then y :: sortInsert x ys else x :: y :: ys

/-- JS `Array.sort()` with the default comparator on an array of strings:
sorts ascending by string comparison (insertion sort; the keys sorted in
this development are pairwise distinct, so stability is irrelevant). -/
def jsSort : List String → List String
  | [] => []
  | x :: xs => sortInsert x (jsSort xs)

/-- JS `String.split(sep)` for a single-character separator, on char lists:
`"".split(c) = [""]`, separators delimit (possibly empty) fields. -/
def splitOnChar (sep : Char) : List Char → List (List Char)
  | [] => [[]]
  | c :: rest =>
    let r := splitOnChar sep rest
    if c = sep then [] :: r
    else
      match r with
      | [] => [[c]]
      | h :: t => (c :: h) :: t

/-- JS `String.split(regex)` for a character-class regex such as
`/[\+\-\*\/]/`: any of the listed characters delimits a field. -/
def splitOnAny (seps : List Char) : List Char → List (List Char)
  | [] => [[]]
  | c :: rest =>
    let r := splitOnAny seps rest
    if seps.contains c then [] :: r
    else
      match r with
      | [] => [[c]]
      | h :: t => (c :: h) :: t

/-- JS `String.indexOf(c)`: index of the first occurrence, `-1` if absent. -/
def jsIndexOf (c : Char) : List Char → Int
  | [] => -1
  | a :: as =>
    if a = c then 0
    else
      let r := jsIndexOf c as
      if r < 0 then -1 else r + 1

/-- Value of a list of decimal digit characters. -/
def digitsToNat (l : List Char) : Nat :=
  l.foldl (fun acc c => acc * 10 + (c.toNat - 48)) 0

/-- An exact rational number as an unnormalized integer fraction. JS
numbers are IEEE-754 doubles; on the small integer values every claim here
evaluates, double arithmetic is exact and agrees with exact rational
arithmetic, so this is a faithful model for those evaluations. The
denominators constructed below are always positive powers of ten. -/
structure Frac where
  num : Int
  den : Int
  deriving DecidableEq

/-- Exact addition of fractions (JS `a + b`). -/
def fracAdd (a b : Frac) : Frac := ⟨a.num * b.den + b.num * a.den, a.den * b.den⟩

/-- Exact subtraction of fractions (JS `a - b`). -/
def fracSub (a b : Frac) : Frac := ⟨a.num * b.den - b.num * a.den, a.den * b.den⟩

/-- Exact multiplication of fractions (JS `a * b`). -/
def fracMul (a b : Frac) : Frac := ⟨a.num * b.num, a.den * b.den⟩

/-- Exact division of fractions (JS `a / b`; only reached after the `b === 0`
guard, so `b.num ≠ 0`). -/
def fracDiv (a b : Frac) : Frac := ⟨a.num * b.den, a.den * b.num⟩

/-- JS `b === 0` on a parsed number: the fraction's value is zero exactly
when its numerator is (denominators here are never zero). -/
def fracIsZero (b : Frac) : Bool := b.num = 0

/-- JS `parseFloat` on a char list, as an exact fraction; `none` models
`NaN`. Parses optional leading whitespace, an optional sign, an integer
part and an optional fraction part, ignoring any trailing garbage, exactly
as `parseFloat` does (exponent notation is not modelled; no input in this
repository uses it). -/
def parseFloatL (cs0 : List Char) : Option Frac :=
  let cs1 := cs0.dropWhile (fun c => c.isWhitespace)
  let sgn : Bool × List Char :=
    match cs1 with
    | '-' :: r => (true, r)
    | '+' :: r => (false, r)
    | _ => (false, cs1)
  let ip := sgn.2.takeWhile (fun c => c.isDigit)
  let rest := sgn.2.dropWhile (fun c => c.isDigit)
  let fp : List Char :=
    match rest with
    | '.' :: r => r.takeWhile (fun c => c.isDigit)
    | _ => []
  if ip.isEmpty && fp.isEmpty then none
  else
    let mag : Int := (digitsToNat ip : Int) * (10 : Int) ^ fp.length + (digitsToNat fp : Int)
    some ⟨(if sgn.1 then -mag else mag), (10 : Int) ^ fp.length⟩

/-- JS `Number.prototype.toString()` for the values produced here: an
integral value prints with no fractional part (`(4).toString() = "4"`).
Non-integral values render as `num/den`, where JS would print a decimal
expansion; no claim in this development evaluates a non-integral result. -/
def jsNumToString (q : Frac) : String :=
  if q.num % q.den = 0 then toString (q.num / q.den)
  else toString q.num ++ "/" ++ toString q.den

/-- JS template interpolation of a possibly-undefined string value:
`undefined` prints as `"undefined"`. -/
def jsShow (o : Option String) : String := o.getD "undefined"

/-- JS truthiness of a possibly-undefined string: `undefined` and `""` are
falsy, every other string is truthy. -/
def jsTruthy (o : Option String) : Bool :=
  match o with
  | none => false
  | some s => !s.isEmpty

/-- JS `Map.get`: the value under a key, if present. -/
def mapGet {α : Type} : List (String × α) → String → Option α
  | [], _ => none
  | (k', v) :: rest, k => if k' = k then some v else mapGet rest k

/-- JS `Map.set`: replace in place when the key is present, append when it
is new (a JS `Map` keeps the original insertion position on overwrite). -/
def mapSet {α : Type} : List (String × α) → String → α → List (String × α)
  | [], k, v => [(k, v)]
  | (k', v') :: rest, k, v =>
    if k' = k then (k, v) :: rest else (k', v') :: mapSet rest k v

/-- JS `Map.delete`: remove the (unique) entry under a key, if present. -/
def mapDelete {α : Type} : List (String × α) → String → List (String × α)
  | [], _ => []
  | (k', v') :: rest, k => if k' = k then rest else (k', v') :: mapDelete rest k

/-- JS `Array.from(map.keys())`: the keys in insertion order. -/
def keysOf {α : Type} (m : List (String × α)) : List String := m.map Prod.fst

/-- The fields of `this` that tool handlers read: `this.callCount`,
`this.tools.size` and `this.tools.keys()` (the latter two as the key list). -/
structure ServerView where
  callCount : Nat
  toolNames : List String

/-- A tool-call result: the `text` fields of the `content` array, plus the
`isError` flag (absent in JS = `false`). -/
structure ToolResult where
  content : List String
  isError : Bool := false
  deriving DecidableEq

/-- The argument object passed to a tool handler. Every handler in the
repository destructures some of these fields; a missing field is
`undefined`, modelled as `none`. -/
structure Args where
  name : Option String := none
  expression : Option String := none
  operation : Option String := none
  action : Option String := none
  details : Option String := none
  celebration : Option String := none
  query : Option String := none

/-- A JSON document, used to transcribe the `inputSchema` of each tool. -/
inductive Json where
  | str : String → Json
  | bool : Bool → Json
  | arr : List Json → Json
  | obj : List (String × Json) → Json

/-- A tool descriptor as stored in `this.tools`: schema, description and
handler (`{schema, description, handler}` in the source). -/
structure ToolConfig where
  schema : Json
  description : String
  handler : ServerView → Args → Except String ToolResult

/-- State of one `DynamicMCPServer` instance: the registry `this.tools`,
the counter `this.callCount`, and the log of notification attempts. -/
structure ServerState where
  tools : List (String × ToolConfig)
  callCount : Nat
  sent : List Bool

/-- The read-only view of a state a handler executes against. -/
def view (s : ServerState) : ServerView :=
  { callCount := s.callCount, toolNames := keysOf s.tools }

/-- Result of one `tools/call` dispatch: either the thrown
`McpError(ErrorCode.MethodNotFound, ...)` or a returned result object. -/
inductive CallOutcome where
  | notFound : String → CallOutcome
  | response : ToolResult → CallOutcome
  deriving DecidableEq

/-- `notifyToolsChanged` (identical in both files): attempts one
`notifications/tools/list_changed` emission; a delivery failure is caught
and logged, so the state change is only the appended log entry. -/
def notifyToolsChanged (s : ServerState) (deliveryOk : Bool) : ServerState :=
  { s with sent := s.sent ++ [deliveryOk] }

/-- `addTool(name, config, notify = false)` (identical in both files). -/
def addTool (s : ServerState) (name : String) (config : ToolConfig)
    (notify : Bool) (deliveryOk : Bool) : ServerState :=
  let s' := { s with tools := mapSet s.tools name config }
  if notify then notifyToolsChanged s' deliveryOk else s'

/-- `removeTool(name, notify = false)` (identical in both files): returns
whether a deletion occurred, notifying only when something was removed and
`notify` was requested. -/
def removeTool (s : ServerState) (name : String) (notify : Bool)
    (deliveryOk : Bool) : Bool × ServerState :=
  let removed := (mapGet s.tools name).isSome
  let s' := { s with tools := mapDelete s.tools name }
  if removed && notify then (removed, notifyToolsChanged s' deliveryOk)
  else (removed, s')

/-- The `greet` tool (identical in both files): schema, description and a
handler producing `Hello, ${name}! This server has been called
${this.callCount} times.`. -/
def greetConfig : ToolConfig where
  schema := Json.obj [("type", Json.str "object"),
    ("properties", Json.obj [("name", Json.obj [("type", Json.str "string"),
      ("description", Json.str "Name of the person to greet")])]),
    ("required", Json.arr [Json.str "name"])]
  description := "Generate a personalized greeting"
  handler := fun v a =>
    .ok { content := ["Hello, " ++ jsShow a.name ++ "! This server has been called " ++
      toString v.callCount ++ " times."] }

/-- The `get_status` tool (identical in both files): reports the current
call count, tool count and tool names. -/
def getStatusConfig : ToolConfig where
  schema := Json.obj [("type", Json.str "object"),
    ("properties", Json.obj []),
    ("additionalProperties", Json.bool false)]
  description := "Get current server status and tool count"
  handler := fun v _ =>
    .ok { content := ["Server Status:\n- Total calls: " ++ toString v.callCount ++
      "\n- Available tools: " ++ toString v.toolNames.length ++
      "\n- Tools: " ++ String.intercalate ", " v.toolNames] }

namespace DMS

/-- `evaluateExpression(expression)` of `src/dynamicMcpServer.js`: strips
whitespace, finds the operator (`+` first; `-` only at a positive index, to
allow a leading minus sign; then `*`; then `/`), splits on it, parses both
sides with `parseFloat`, and computes. Every failure is reported as a
message string; the function never throws on a string input. The `none`
case models the handler passing `undefined` (missing `expression`
argument), where `.replace` throws a `TypeError` that the surrounding
`try`/`catch` converts into an `Error: ...` string. -/
def evaluateExpression (expression : Option String) : String :=
  match expression with
  | none => "Error: Cannot read properties of undefined (reading 'replace')"
  | some expr =>
    let clean : List Char := expr.data.filter (fun c => !c.isWhitespace)
    let opParts : Option (Char × List (List Char)) :=
      if clean.contains '+' then some ('+', splitOnChar '+' clean)
      else if clean.contains '-' && jsIndexOf '-' clean > 0 then
        some ('-', splitOnChar '-' clean)
      else if clean.contains '*' then some ('*', splitOnChar '*' clean)
      else if clean.contains '/' then some ('/', splitOnChar '/' clean)
      else none
    match opParts with
    | none => "No valid operator found (+, -, *, /)"
    | some (op, parts) =>
      match parts with
      | [p0, p1] =>
        if p0.isEmpty || p1.isEmpty then "Invalid expression format"
        else
          match parseFloatL p0, parseFloatL p1 with
          | some a, some b =>
            if op = '+' then jsNumToString (fracAdd a b)
            else if op = '-' then jsNumToString (fracSub a b)
            else if op = '*' then jsNumToString (fracMul a b)
            else if op = '/' then
              if fracIsZero b then "Cannot divide by zero"
              else jsNumToString (fracDiv a b)
            else "Unknown operation"
          | _, _ => "Invalid numbers in expression"
      | _ => "Invalid expression format"

/-- The `calculate` tool of `src/dynamicMcpServer.js` (single `expression`
argument). -/
def calculateConfig : ToolConfig where
  schema := Json.obj [("type", Json.str "object"),
    ("properties", Json.obj [("expression", Json.obj [("type", Json.str "string"),
      ("description", Json.str "Mathematical expression (e.g., '5 + 3', '10 - 2', '4 * 6', '8 / 2')")])]),
    ("required", Json.arr [Json.str "expression"])]
  description := "Perform basic mathematical calculations"
  handler := fun _ a =>
    .ok { content := ["Calculation: " ++ jsShow a.expression ++ " = " ++
      evaluateExpression a.expression] }

/-- The static `followup` tool of `src/dynamicMcpServer.js`, unlocked after
the first greeting. -/
def followupConfig : ToolConfig where
  schema := Json.obj [("type", Json.str "object"),
    ("properties", Json.obj [
      ("action", Json.obj [("type", Json.str "string"),
        ("description", Json.str "Action to take as a followup")]),
      ("details", Json.obj [("type", Json.str "string"),
        ("description", Json.str "Additional details for the action")])]),
    ("required", Json.arr [Json.str "action"])]
  description := "Execute a followup action after greeting"
  handler := fun _ a =>
    .ok { content := ["Executing followup action: " ++ jsShow a.action ++
      (if jsTruthy a.details then " - " ++ jsShow a.details else "") ++
      "\n(This followup tool was unlocked after greeting!)"] }

/-- `updateToolsAfterCall(calledTool)` of `src/dynamicMcpServer.js`: when
the called tool was `greet`, add `calculate`, `get_status` and `followup`
(each without per-add notification) and then send one change notification;
otherwise do nothing. -/
def updateToolsAfterCall (s : ServerState) (calledTool : String)
    (deliveryOk : Bool) : ServerState :=
  if calledTool = "greet" then
    let s1 := addTool s "calculate" calculateConfig false deliveryOk
    let s2 := addTool s1 "get_status" getStatusConfig false deliveryOk
    let s3 := addTool s2 "followup" followupConfig false deliveryOk
    notifyToolsChanged s3 deliveryOk
  else s

/-- `registerInitialTools` + constructor of `src/dynamicMcpServer.js`: the
registry starts with only `greet`, the counter at 0, nothing notified. -/
def initState : ServerState where
  tools := [("greet", greetConfig)]
  callCount := 0
  sent := []

/-- The `tools/call` request handler of `src/dynamicMcpServer.js`: look up
the tool (throwing `MethodNotFound` when absent), increment `callCount`,
run the handler, run `updateToolsAfterCall`, and return the captured
result; an exception from the handler is caught and converted into an
`isError` response — note that the `catch` also skips
`updateToolsAfterCall`, which sits after the handler call inside the
`try`. -/
def callTool (s : ServerState) (name : String) (args : Option Args)
    (deliveryOk : Bool) : CallOutcome × ServerState :=
  match mapGet s.tools name with
  | none => (.notFound ("Tool '" ++ name ++ "' not found"), s)
  | some tool =>
    let s1 := { s with callCount := s.callCount + 1 }
    match tool.handler (view s1) (args.getD {}) with
    | .ok result => (.response result, updateToolsAfterCall s1 name deliveryOk)
    | .error msg =>
      (.response { content := ["Error executing " ++ name ++ ": " ++ msg],
                   isError := true }, s1)

end DMS

/-- Name of a minted follow-up tool: `followup_${timestamp}` where the
timestamp is the `Date.now()` value at mutation time. -/
def mintName (t : Nat) : String := "followup_" ++ toString t

/-- Name of a milestone tool: `milestone_${this.callCount}`. -/
def milestoneName (n : Nat) : String := "milestone_" ++ toString n

/-- Name of a history tool: `history_${this.callCount}`. -/
def historyName (n : Nat) : String := "history_" ++ toString n

/-- The minted-follow-up key predicate used by the pruning step:
`name.startsWith("followup_")`. -/
def isFollowupKey (nm : String) : Bool := jsStartsWith nm "followup_"

/-- The minted follow-up keys currently in a registry, in insertion order
(what `Array.from(this.tools.keys()).filter(n => n.startsWith("followup_"))`
returns). -/
def followupKeys (tools : List (String × ToolConfig)) : List String :=
  (keysOf tools).filter isFollowupKey

/-- The milestone keys currently in a registry, in insertion order. -/
def milestoneKeys (tools : List (String × ToolConfig)) : List String :=
  (keysOf tools).filter (fun nm => jsStartsWith nm "milestone_")

namespace IDX

/-- `evaluateExpression(expression, operation)` of `src/index.js`: strips
whitespace, splits on any operator character, parses both sides with
`parseFloat`, and applies the operation named by the separate `operation`
argument. Every failure is reported as a message string. The `none`
expression case models the handler passing `undefined`, where `.replace`
throws a `TypeError` that the `try`/`catch` converts into an `Error: ...`
string; an `undefined` operation falls to the `default` switch case. -/
def evaluateExpression (expression operation : Option String) : String :=
  match expression with
  | none => "Error: Cannot read properties of undefined (reading 'replace')"
  | some expr =>
    let clean : List Char := expr.data.filter (fun c => !c.isWhitespace)
    match splitOnAny ['+', '-', '*', '/'] clean with
    | [p0, p1] =>
      match parseFloatL p0, parseFloatL p1 with
      | some a, some b =>
        if operation = some "add" then jsNumToString (fracAdd a b)
        else if operation = some "subtract" then jsNumToString (fracSub a b)
        else if operation = some "multiply" then jsNumToString (fracMul a b)
        else if operation = some "divide" then
          if fracIsZero b then "Cannot divide by zero"
          else jsNumToString (fracDiv a b)
        else "Unknown operation"
      | _, _ => "Invalid numbers in expression"
    | _ => "Invalid expression format"

/-- The `calculate` tool of `src/index.js` (`expression` + `operation`
arguments). -/
def calculateConfig : ToolConfig where
  schema := Json.obj [("type", Json.str "object"),
    ("properties", Json.obj [
      ("expression", Json.obj [("type", Json.str "string"),
        ("description", Json.str "Mathematical expression (e.g., '5 + 3')")]),
      ("operation", Json.obj [("type", Json.str "string"),
        ("enum", Json.arr [Json.str "add", Json.str "subtract",
          Json.str "multiply", Json.str "divide"]),
        ("description", Json.str "Type of operation")])]),
    ("required", Json.arr [Json.str "expression", Json.str "operation"])]
  description := "Perform basic mathematical calculations"
  handler := fun _ a =>
    .ok { content := ["Calculation: " ++ jsShow a.expression ++ " (" ++
      jsShow a.operation ++ ") = " ++ evaluateExpression a.expression a.operation] }

/-- A minted follow-up tool of `src/index.js`: its description bakes in the
called tool and the call count at creation time; its handler captures the
called tool. -/
def followupMintedConfig (calledTool : String) (creationCount : Nat) : ToolConfig where
  schema := Json.obj [("type", Json.str "object"),
    ("properties", Json.obj [
      ("action", Json.obj [("type", Json.str "string"),
        ("description", Json.str "Action to take as followup")]),
      ("details", Json.obj [("type", Json.str "string"),
        ("description", Json.str "Additional details for the action")])]),
    ("required", Json.arr [Json.str "action"])]
  description := "Followup tool created after calling '" ++ calledTool ++
    "' (call #" ++ toString creationCount ++ ")"
  handler := fun _ a =>
    .ok { content := ["Executing followup action: " ++ jsShow a.action ++
      (if jsTruthy a.details then " - " ++ jsShow a.details else "") ++
      "\n(This tool was created after calling '" ++ calledTool ++ "')"] }

/-- A milestone tool of `src/index.js`: its description bakes in the call
count at creation time; its handler reads the live count. -/
def milestoneConfig (creationCount : Nat) : ToolConfig where
  schema := Json.obj [("type", Json.str "object"),
    ("properties", Json.obj [
      ("celebration", Json.obj [("type", Json.str "string"),
        ("description", Json.str "How to celebrate this milestone")])]),
    ("required", Json.arr [Json.str "celebration"])]
  description := "Milestone celebration tool for reaching " ++
    toString creationCount ++ " calls!"
  handler := fun v a =>
    .ok { content := ["🎉 Milestone " ++ toString v.callCount ++
      " reached! Celebration: " ++ jsShow a.celebration ++
      "\n\nYou've made " ++ toString v.callCount ++ " tool calls total!"] }

/-- A history tool of `src/index.js`: its description bakes in the call
count at creation time; its handler captures the called tool and reads the
live count. -/
def historyConfig (calledTool : String) (creationCount : Nat) : ToolConfig where
  schema := Json.obj [("type", Json.str "object"),
    ("properties", Json.obj [
      ("query", Json.obj [("type", Json.str "string"),
        ("description", Json.str "What to know about the call history")])]),
    ("required", Json.arr [Json.str "query"])]
  description := "History tool - knows about your " ++
    toString creationCount ++ " calls"
  handler := fun v a =>
    .ok { content := ["Call History Query: \"" ++ jsShow a.query ++
      "\"\n\nResponse: You've made " ++ toString v.callCount ++
      " calls total. The last tool called was '" ++ calledTool ++
      "'. This server demonstrates dynamic tool creation!"] }

/-- `updateToolsAfterCall(calledTool)` of `src/index.js`, with `Date.now()`
passed in as `now`. In source order: mint and add `followup_${timestamp}`;
collect the keys starting with `followup_`, sort them, take all but the
last three (`slice(0, -3)`) and remove those; add `milestone_${callCount}`
when the count is divisible by 5; add `history_${callCount}` when it is
divisible by 3; finally send one change notification. `this.callCount` is
the already-incremented counter, i.e. `s.callCount`. -/
def updateToolsAfterCall (s : ServerState) (calledTool : String) (now : Nat)
    (deliveryOk : Bool) : ServerState :=
  let newToolName := mintName now
  let s1 := addTool s newToolName (followupMintedConfig calledTool s.callCount)
    false deliveryOk
  let fks := (keysOf s1.tools).filter isFollowupKey
  let followupTools := (jsSort fks).take (fks.length - 3)
  let s2 := followupTools.foldl (fun st nm => (removeTool st nm false deliveryOk).2) s1
  let s3 :=
    if s2.callCount % 5 = 0 then
      addTool s2 (milestoneName s2.callCount) (milestoneConfig s2.callCount)
        false deliveryOk
    else s2
  let s4 :=
    if s3.callCount % 3 = 0 then
      addTool s3 (historyName s3.callCount) (historyConfig calledTool s3.callCount)
        false deliveryOk
    else s3
  notifyToolsChanged s4 deliveryOk

/-- `registerInitialTools` + constructor of `src/index.js`: `calculate`,
`greet` and `get_status` in insertion order, counter at 0, nothing
notified. -/
def initState : ServerState where
  tools := [("calculate", calculateConfig), ("greet", greetConfig),
    ("get_status", getStatusConfig)]
  callCount := 0
  sent := []

/-- The `tools/call` request handler of `src/index.js`: identical dispatch
logic to `src/dynamicMcpServer.js` (lookup, `MethodNotFound` throw,
increment, handler, mutation pass, captured result; handler exceptions
caught into an `isError` response, skipping the mutation pass), with the
sliding-window `updateToolsAfterCall`. -/
def callTool (s : ServerState) (name : String) (args : Option Args) (now : Nat)
    (deliveryOk : Bool) : CallOutcome × ServerState :=
  match mapGet s.tools name with
  | none => (.notFound ("Tool '" ++ name ++ "' not found"), s)
  | some tool =>
    let s1 := { s with callCount := s.callCount + 1 }
    match tool.handler (view s1) (args.getD {}) with
    | .ok result => (.response result, updateToolsAfterCall s1 name now deliveryOk)
    | .error msg =>
      (.response { content := ["Error executing " ++ name ++ ": " ++ msg],
                   isError := true }, s1)

/-- Test driver: dispatch a list of `(name, arguments, Date.now())` calls in
order, requiring every one of them to be a successful dispatch (tool found
and handler returned normally); delivery of every notification succeeds.
Mirrors the success path of `callTool`. -/
def runOk (s : ServerState) : List (String × Option Args × Nat) → Option ServerState
  | [] => some s
  | (n, a, t) :: rest =>
    match mapGet s.tools n with
    | none => none
    | some tool =>
      let s1 := { s with callCount := s.callCount + 1 }
      match tool.handler (view s1) (a.getD {}) with
      | .error _ => none
      | .ok _ => runOk (updateToolsAfterCall s1 n t true) rest

end IDX

/-- The last `n` elements of a list (used to state "the most recently
minted follow-ups"). -/
def lastN {α : Type} (n : Nat) (l : List α) : List α := l.drop (l.length - n)

/-- A tool whose handler always throws, exercising the dispatcher's
`catch` path (the `Tool Descriptor Store` accepts arbitrary handlers). -/
def boomTool : ToolConfig where
  schema := Json.obj [("type", Json.str "object"), ("properties", Json.obj [])]
  description := "a tool whose handler always throws"
  handler := fun _ _ => .error "boom"

/-- A session state whose registry holds only the throwing tool. -/
def cexState : ServerState where
  tools := [("boom", boomTool)]
  callCount := 0
  sent := []

/-- Ten successful `greet` dispatches with strictly increasing, equal-width
`Date.now()` values. -/
def c5steps : List (String × Option Args × Nat) :=
  [("greet", none, 1000000001), ("greet", none, 1000000002),
   ("greet", none, 1000000003), ("greet", none, 1000000004),
   ("greet", none, 1000000005), ("greet", none, 1000000006),
   ("greet", none, 1000000007), ("greet", none, 1000000008),
   ("greet", none, 1000000009), ("greet", none, 1000000010)]

/-- The state reached by running `c5steps` from the fresh sliding-window
session. -/
def c5final : ServerState := (IDX.runOk IDX.initState c5steps).getD IDX.initState

/-- Ten successful `greet` dispatches where the last two fall into the same
`Date.now()` millisecond (1008): a realizable clock trace under high
invocation rates. -/
def c5badSteps : List (String × Option Args × Nat) :=
  [("greet", none, 1000), ("greet", none, 1001), ("greet", none, 1002),
   ("greet", none, 1003), ("greet", none, 1004), ("greet", none, 1005),
   ("greet", none, 1006), ("greet", none, 1007), ("greet", none, 1008),
   ("greet", none, 1008)]

/-- The state reached by running `c5badSteps` from the fresh sliding-window
session. -/
def c5badFinal : ServerState :=
  (IDX.runOk IDX.initState c5badSteps).getD IDX.initState

theorem charListLt_irrefl (l : List Char) : charListLt l l = false := by
  induction l with
  | nil => rfl
  | cons a as ih => simp [charListLt, ih]

theorem charListLt_asymm : ∀ a b : List Char,
    charListLt a b = true → charListLt b a = false := by
  intro a
  induction a with
  | nil =>
    intro b h
    cases b with
    | nil => exact absurd h (by decide)
    | cons c cs => rfl
  | cons x xs ih =>
    intro b h
    cases b with
    | nil => exact absurd h (by simp [charListLt])
    | cons y ys =>
      simp only [charListLt] at h ⊢
      by_cases h1 : x.toNat < y.toNat
      · have h2 : ¬ y.toNat < x.toNat := by omega
        simp [h1, h2]
      · by_cases h2 : y.toNat < x.toNat
        · simp [h1, h2] at h
        · simp [h1, h2] at h ⊢
          exact ih ys h

theorem jsStrLt_asymm (a b : String) (h : jsStrLt a b = true) : jsStrLt b a = false :=
  charListLt_asymm a.data b.data h

theorem isLeadOf_append (p t : List Char) : isLeadOf p (p ++ t) = true := by
  induction p with
  | nil => rfl
  | cons a as ih => simp [isLeadOf, ih]

theorem isLeadOf_ne_head (a b : Char) (p l : List Char) (h : a ≠ b) :
    isLeadOf (a :: p) (b :: l) = false := by
  simp [isLeadOf, h]

theorem isLeadOf_head_eq (a b : Char) (p l : List Char)
    (h : isLeadOf (a :: p) (b :: l) = true) : a = b := by
  by_cases hab : a = b
  · exact hab
  · rw [isLeadOf_ne_head a b p l hab] at h
    exact absurd h (by decide)

theorem mint_isFollowupKey (t : Nat) : isFollowupKey (mintName t) = true := by
  show isLeadOf "followup_".data ("followup_" ++ toString t).data = true
  rw [String.data_append]
  exact isLeadOf_append _ _

theorem milestone_not_followupKey (n : Nat) :
    isFollowupKey (milestoneName n) = false := by
  show isLeadOf "followup_".data ("milestone_" ++ toString n).data = false
  rw [String.data_append]
  exact isLeadOf_ne_head 'f' 'm' _ _ (by decide)

theorem history_not_followupKey (n : Nat) :
    isFollowupKey (historyName n) = false := by
  show isLeadOf "followup_".data ("history_" ++ toString n).data = false
  rw [String.data_append]
  exact isLeadOf_ne_head 'f' 'h' _ _ (by decide)

theorem history_not_milestone (n : Nat) :
    jsStartsWith (historyName n) "milestone_" = false := by
  show isLeadOf "milestone_".data ("history_" ++ toString n).data = false
  rw [String.data_append]
  exact isLeadOf_ne_head 'm' 'h' _ _ (by decide)

theorem followupKey_not_milestone (k : String) (h : isFollowupKey k = true) :
    jsStartsWith k "milestone_" = false := by
  simp only [isFollowupKey, jsStartsWith] at h ⊢
  cases hk : k.data with
  | nil =>
    rw [hk] at h
    exact absurd h (by decide)
  | cons c cs =>
    rw [hk] at h
    have : 'f' = c := isLeadOf_head_eq 'f' c _ cs h
    subst this
    exact isLeadOf_ne_head 'm' 'f' _ _ (by decide)

theorem keysOf_mapSet {α : Type} (m : List (String × α)) (k : String) (v : α) :
    keysOf (mapSet m k v) = if k ∈ keysOf m then keysOf m else keysOf m ++ [k] := by
  induction m with
  | nil => simp [mapSet, keysOf]
  | cons p rest ih =>
    obtain ⟨k', v'⟩ := p
    by_cases h : k' = k
    · subst h
      simp [mapSet, keysOf]
    · have hne : ¬ k = k' := fun hh => h hh.symm
      simp only [mapSet, keysOf, List.map_cons, if_neg h]
      simp only [keysOf] at ih
      by_cases h2 : k ∈ keysOf rest
      · simp only [keysOf] at h2
        rw [ih]
        simp [h2, hne]
      · simp only [keysOf] at h2
        rw [ih]
        simp [h2, hne]

theorem keysOf_mapSet_not_mem {α : Type} (m : List (String × α)) (k : String) (v : α)
    (h : k ∉ keysOf m) : keysOf (mapSet m k v) = keysOf m ++ [k] := by
  rw [keysOf_mapSet, if_neg h]

theorem keysOf_mapSet_mem {α : Type} (m : List (String × α)) (k : String) (v : α)
    (h : k ∈ keysOf m) : keysOf (mapSet m k v) = keysOf m := by
  rw [keysOf_mapSet, if_pos h]

theorem nodup_keysOf_mapSet {α : Type} (m : List (String × α)) (k : String) (v : α)
    (h : (keysOf m).Nodup) : (keysOf (mapSet m k v)).Nodup := by
  by_cases hk : k ∈ keysOf m
  · rw [keysOf_mapSet_mem m k v hk]; exact h
  · rw [keysOf_mapSet_not_mem m k v hk]
    simp [List.nodup_append, h, hk]

theorem keysOf_mapDelete {α : Type} (m : List (String × α)) (k : String) :
    keysOf (mapDelete m k) = (keysOf m).erase k := by
  induction m with
  | nil => simp [mapDelete, keysOf]
  | cons p rest ih =>
    obtain ⟨k', v'⟩ := p
    by_cases h : k' = k
    · subst h
      simp [mapDelete, keysOf, List.erase_cons]
    · simp only [keysOf] at ih
      simp [mapDelete, keysOf, List.erase_cons, h, ih]

theorem mapGet_mapSet_self {α : Type} (m : List (String × α)) (k : String) (v : α) :
    mapGet (mapSet m k v) k = some v := by
  induction m with
  | nil => simp [mapSet, mapGet]
  | cons p rest ih =>
    obtain ⟨k', v'⟩ := p
    by_cases h : k' = k
    · subst h
      simp [mapSet, mapGet]
    · simp [mapSet, mapGet, h, ih]

theorem mapGet_mapSet_ne {α : Type} (m : List (String × α)) (k k' : String) (v : α)
    (h : k' ≠ k) : mapGet (mapSet m k v) k' = mapGet m k' := by
  have hks : ¬ k = k' := Ne.symm h
  induction m with
  | nil =>
    simp [mapSet, mapGet, hks]
  | cons p rest ih =>
    obtain ⟨ka, va⟩ := p
    by_cases hka : ka = k
    · subst hka
      simp [mapSet, mapGet, hks]
    · simp [mapSet, mapGet, hka, ih]

theorem mapGet_eq_none_iff {α : Type} (m : List (String × α)) (k : String) :
    mapGet m k = none ↔ k ∉ keysOf m := by
  induction m with
  | nil => simp [mapGet, keysOf]
  | cons p rest ih =>
    obtain ⟨k', v'⟩ := p
    by_cases h : k' = k
    · subst h
      simp [mapGet, keysOf]
    · have h2 : ¬ k = k' := Ne.symm h
      simp only [mapGet, if_neg h, keysOf, List.map_cons, List.mem_cons]
      simp only [keysOf] at ih
      rw [ih]
      constructor
      · intro hn hc
        rcases hc with hc | hc
        · exact h2 hc
        · exact hn hc
      · intro hn hc
        exact hn (Or.inr hc)

theorem filter_erase (p : String → Bool) (k : String) (l : List String) :
    (l.erase k).filter p = if p k then (l.filter p).erase k else l.filter p := by
  induction l with
  | nil => by_cases hp : p k <;> simp [hp]
  | cons a l ih =>
    by_cases hak : a = k
    · subst hak
      by_cases hp : p a <;> simp [List.erase_cons, List.filter_cons, hp]
    · by_cases hp : p a
      · by_cases hpk : p k
        · simp [List.erase_cons, List.filter_cons, hak, hp, hpk, ih]
        · simp [List.erase_cons, List.filter_cons, hak, hp, hpk, ih]
      · by_cases hpk : p k
        · simp [List.erase_cons, List.filter_cons, hak, hp, hpk, ih]
        · simp [List.erase_cons, List.filter_cons, hak, hp, hpk, ih]

theorem mem_sortInsert (x y : String) (l : List String) :
    y ∈ sortInsert x l ↔ y = x ∨ y ∈ l := by
  induction l with
  | nil => simp [sortInsert]
  | cons a as ih =>
    by_cases h : jsStrLt a x = true
    · simp only [sortInsert, if_pos h, List.mem_cons, ih]
      tauto
    · simp only [sortInsert, if_neg h, List.mem_cons]

theorem mem_jsSort (x : String) (l : List String) : x ∈ jsSort l ↔ x ∈ l := by
  induction l with
  | nil => simp [jsSort]
  | cons a as ih =>
    simp [jsSort, mem_sortInsert, ih]

theorem jsSort_of_sorted (l : List String)
    (h : l.Pairwise (fun a b => jsStrLt a b = true)) : jsSort l = l := by
  induction l with
  | nil => rfl
  | cons a as ih =>
    have has : as.Pairwise (fun a b => jsStrLt a b = true) := h.of_cons
    have hlt : ∀ y ∈ as, jsStrLt a y = true :=
      fun y hy => List.rel_of_pairwise_cons h hy
    show sortInsert a (jsSort as) = a :: as
    rw [ih has]
    cases as with
    | nil => rfl
    | cons b bs =>
      have hb : jsStrLt b a = false :=
        jsStrLt_asymm a b (hlt b (by simp))
      simp [sortInsert, hb]

theorem lastN_length_le {α : Type} (n : Nat) (l : List α) : (lastN n l).length ≤ n := by
  simp [lastN]
  omega

theorem lastN_of_length_le {α : Type} (n : Nat) (l : List α) (h : l.length ≤ n) :
    lastN n l = l := by
  have : l.length - n = 0 := by omega
  simp [lastN, this]

theorem lastN_sublist {α : Type} (n : Nat) (l : List α) :
    List.Sublist (lastN n l) l :=
  List.drop_sublist _ l

theorem lastN_three_snoc (done : List String) (m : String) :
    lastN 3 (done ++ [m]) =
      if done.length ≤ 2 then lastN 3 done ++ [m] else (lastN 3 done).tail ++ [m] := by
  by_cases h : done.length ≤ 2
  · rw [if_pos h, lastN_of_length_le 3 done (by omega),
      lastN_of_length_le 3 (done ++ [m]) (by simp; omega)]
  · rw [if_neg h]
    have h3 : 3 ≤ done.length := by omega
    have hdrop : (lastN 3 done).tail = done.drop (done.length - 2) := by
      rw [lastN, ← List.drop_one, List.drop_drop]
      congr 1
      omega
    rw [hdrop, lastN]
    have hlen : (done ++ [m]).length - 3 = done.length - 2 := by
      simp only [List.length_append, List.length_singleton]
      omega
    rw [hlen]
    exact List.drop_append_of_le_length (by omega)

theorem lastN_three_len (l : List String) : (lastN 3 l).length = min 3 l.length := by
  simp [lastN]
  omega

theorem tools_notifyToolsChanged (s : ServerState) (ok : Bool) :
    (notifyToolsChanged s ok).tools = s.tools := rfl

theorem callCount_notifyToolsChanged (s : ServerState) (ok : Bool) :
    (notifyToolsChanged s ok).callCount = s.callCount := rfl


theorem jsStrLt_irrefl (a : String) : jsStrLt a a = false :=
  charListLt_irrefl a.data

theorem addTool_false (s : ServerState) (n : String) (c : ToolConfig) (ok : Bool) :
    addTool s n c false ok = { s with tools := mapSet s.tools n c } := rfl

theorem removeTool_false (s : ServerState) (n : String) (ok : Bool) :
    (removeTool s n false ok).2 = { s with tools := mapDelete s.tools n } := by
  simp [removeTool]

theorem callCount_addTool (s : ServerState) (n : String) (c : ToolConfig)
    (b ok : Bool) : (addTool s n c b ok).callCount = s.callCount := by
  by_cases hb : b <;> simp [addTool, notifyToolsChanged, hb]

theorem sent_addTool_false (s : ServerState) (n : String) (c : ToolConfig)
    (ok : Bool) : (addTool s n c false ok).sent = s.sent := rfl

theorem mem_followupKeys (k : String) (m : List (String × ToolConfig)) :
    k ∈ followupKeys m ↔ k ∈ keysOf m ∧ isFollowupKey k = true := by
  simp [followupKeys, List.mem_filter]

theorem followupKeys_addTool_false (st : ServerState) (k : String) (c : ToolConfig)
    (ok : Bool) (h : isFollowupKey k = false) :
    followupKeys (addTool st k c false ok).tools = followupKeys st.tools := by
  rw [addTool_false]
  show followupKeys (mapSet st.tools k c) = followupKeys st.tools
  unfold followupKeys
  by_cases hk : k ∈ keysOf st.tools
  · rw [keysOf_mapSet_mem _ _ _ hk]
  · rw [keysOf_mapSet_not_mem _ _ _ hk, List.filter_append]
    simp [h]

theorem milestoneKeys_addTool_false (st : ServerState) (k : String) (c : ToolConfig)
    (ok : Bool) (h : jsStartsWith k "milestone_" = false) :
    milestoneKeys (addTool st k c false ok).tools = milestoneKeys st.tools := by
  rw [addTool_false]
  show milestoneKeys (mapSet st.tools k c) = milestoneKeys st.tools
  unfold milestoneKeys
  by_cases hk : k ∈ keysOf st.tools
  · rw [keysOf_mapSet_mem _ _ _ hk]
  · rw [keysOf_mapSet_not_mem _ _ _ hk, List.filter_append]
    simp [h]

theorem nodup_addTool (st : ServerState) (k : String) (c : ToolConfig) (ok : Bool)
    (h : (keysOf st.tools).Nodup) :
    (keysOf (addTool st k c false ok).tools).Nodup := by
  rw [addTool_false]
  exact nodup_keysOf_mapSet st.tools k c h

theorem removals_fold_tools (rs : List String) (s : ServerState) (ok : Bool) :
    rs.foldl (fun st nm => (removeTool st nm false ok).2) s =
      { s with tools := rs.foldl (fun ts nm => mapDelete ts nm) s.tools } := by
  induction rs generalizing s with
  | nil => rfl
  | cons r rs ih =>
    rw [List.foldl_cons, List.foldl_cons, removeTool_false, ih]

theorem followupKeys_fold_delete (rs : List String)
    (ts : List (String × ToolConfig)) (h : ∀ k ∈ rs, isFollowupKey k = true) :
    followupKeys (rs.foldl (fun m nm => mapDelete m nm) ts) =
      rs.foldl (fun acc k => acc.erase k) (followupKeys ts) := by
  induction rs generalizing ts with
  | nil => rfl
  | cons r rs ih =>
    rw [List.foldl_cons, List.foldl_cons,
      ih (mapDelete ts r) (fun k hk => h k (List.mem_cons_of_mem r hk))]
    congr 1
    unfold followupKeys
    rw [keysOf_mapDelete, filter_erase, h r (List.mem_cons_self r rs)]
    simp

theorem milestoneKeys_fold_delete (rs : List String)
    (ts : List (String × ToolConfig)) (h : ∀ k ∈ rs, isFollowupKey k = true) :
    milestoneKeys (rs.foldl (fun m nm => mapDelete m nm) ts) = milestoneKeys ts := by
  induction rs generalizing ts with
  | nil => rfl
  | cons r rs ih =>
    rw [List.foldl_cons,
      ih (mapDelete ts r) (fun k hk => h k (List.mem_cons_of_mem r hk))]
    unfold milestoneKeys
    rw [keysOf_mapDelete, filter_erase,
      followupKey_not_milestone r (h r (List.mem_cons_self r rs))]
    simp

theorem nodup_fold_delete (rs : List String) (ts : List (String × ToolConfig))
    (h : (keysOf ts).Nodup) :
    (keysOf (rs.foldl (fun m nm => mapDelete m nm) ts)).Nodup := by
  induction rs generalizing ts with
  | nil => exact h
  | cons r rs ih =>
    rw [List.foldl_cons]
    apply ih
    rw [keysOf_mapDelete]
    exact h.erase r

theorem erase_take_fold (F : List String) (j : Nat) :
    (F.take j).foldl (fun acc k => acc.erase k) F = F.drop j := by
  induction F generalizing j with
  | nil => simp
  | cons f F ih =>
    cases j with
    | zero => simp
    | succ j =>
      rw [List.take_succ_cons, List.foldl_cons, List.erase_cons_head, List.drop_succ_cons]
      exact ih j

theorem followupKeys_mapSet_false (m : List (String × ToolConfig)) (k : String)
    (v : ToolConfig) (h : isFollowupKey k = false) :
    followupKeys (mapSet m k v) = followupKeys m := by
  unfold followupKeys
  by_cases hk : k ∈ keysOf m
  · rw [keysOf_mapSet_mem _ _ _ hk]
  · rw [keysOf_mapSet_not_mem _ _ _ hk, List.filter_append]
    simp [h]

theorem followupKeys_mapSet_new (m : List (String × ToolConfig)) (k : String)
    (v : ToolConfig) (hmem : k ∉ keysOf m) (h : isFollowupKey k = true) :
    followupKeys (mapSet m k v) = followupKeys m ++ [k] := by
  unfold followupKeys
  rw [keysOf_mapSet_not_mem _ _ _ hmem, List.filter_append]
  simp [h]

theorem milestoneKeys_mapSet_false (m : List (String × ToolConfig)) (k : String)
    (v : ToolConfig) (h : jsStartsWith k "milestone_" = false) :
    milestoneKeys (mapSet m k v) = milestoneKeys m := by
  unfold milestoneKeys
  by_cases hk : k ∈ keysOf m
  · rw [keysOf_mapSet_mem _ _ _ hk]
  · rw [keysOf_mapSet_not_mem _ _ _ hk, List.filter_append]
    simp [h]

theorem callCount_update_IDX (s : ServerState) (n : String) (t : Nat) (ok : Bool) :
    (IDX.updateToolsAfterCall s n t ok).callCount = s.callCount := by
  simp only [IDX.updateToolsAfterCall, callCount_notifyToolsChanged,
    addTool_false, removals_fold_tools]
  split_ifs <;> rfl

theorem callCount_update_DMS (s : ServerState) (n : String) (ok : Bool) :
    (DMS.updateToolsAfterCall s n ok).callCount = s.callCount := by
  simp only [DMS.updateToolsAfterCall, callCount_notifyToolsChanged, addTool_false]
  split_ifs <;> rfl

theorem sent_update_IDX (s : ServerState) (n : String) (t : Nat) (ok : Bool) :
    (IDX.updateToolsAfterCall s n t ok).sent = s.sent ++ [ok] := by
  simp only [IDX.updateToolsAfterCall, notifyToolsChanged,
    addTool_false, removals_fold_tools]
  split_ifs <;> rfl

theorem sent_update_DMS (s : ServerState) (n : String) (ok : Bool) :
    (DMS.updateToolsAfterCall s n ok).sent =
      if n = "greet" then s.sent ++ [ok] else s.sent := by
  simp only [DMS.updateToolsAfterCall, notifyToolsChanged, addTool_false]
  split_ifs <;> rfl

theorem tools_update_IDX_ok (s : ServerState) (n : String) (t : Nat) (ok : Bool) :
    (IDX.updateToolsAfterCall s n t ok).tools =
      (IDX.updateToolsAfterCall s n t true).tools := by
  simp only [IDX.updateToolsAfterCall, tools_notifyToolsChanged,
    addTool_false, removals_fold_tools]

theorem tools_update_DMS_ok (s : ServerState) (n : String) (ok : Bool) :
    (DMS.updateToolsAfterCall s n ok).tools =
      (DMS.updateToolsAfterCall s n true).tools := by
  simp only [DMS.updateToolsAfterCall, tools_notifyToolsChanged, addTool_false]
  split_ifs <;> rfl

theorem update_followup_pass (s : ServerState) (n : String) (t : Nat) (ok : Bool)
    (hsorted : (followupKeys s.tools).Pairwise (fun a b => jsStrLt a b = true))
    (hless : ∀ x ∈ followupKeys s.tools, jsStrLt x (mintName t) = true) :
    followupKeys (IDX.updateToolsAfterCall s n t ok).tools =
      lastN 3 (followupKeys s.tools ++ [mintName t]) := by
  have hm : isFollowupKey (mintName t) = true := mint_isFollowupKey t
  have hmnotin : mintName t ∉ keysOf s.tools := by
    intro hmem
    have h1 : mintName t ∈ followupKeys s.tools :=
      (mem_followupKeys _ _).mpr ⟨hmem, hm⟩
    have h2 := hless _ h1
    rw [jsStrLt_irrefl] at h2
    exact absurd h2 (by decide)
  have hfk1 : followupKeys (mapSet s.tools (mintName t)
      (IDX.followupMintedConfig n s.callCount)) =
      followupKeys s.tools ++ [mintName t] :=
    followupKeys_mapSet_new _ _ _ hmnotin hm
  have hpair : (followupKeys s.tools ++ [mintName t]).Pairwise
      (fun a b => jsStrLt a b = true) := by
    rw [List.pairwise_append]
    refine ⟨hsorted, List.pairwise_singleton _ _, ?_⟩
    intro a ha b hb
    rw [List.mem_singleton] at hb
    subst hb
    exact hless a ha
  simp only [IDX.updateToolsAfterCall, tools_notifyToolsChanged,
    addTool_false, removals_fold_tools]
  have hfil : List.filter isFollowupKey (keysOf (mapSet s.tools (mintName t)
      (IDX.followupMintedConfig n s.callCount))) =
      followupKeys s.tools ++ [mintName t] := hfk1
  rw [hfil, jsSort_of_sorted _ hpair]
  have hsub : ∀ k ∈ (followupKeys s.tools ++ [mintName t]).take
      ((followupKeys s.tools ++ [mintName t]).length - 3), isFollowupKey k = true := by
    intro k hk
    have hkmem : k ∈ followupKeys s.tools ++ [mintName t] := List.take_subset _ _ hk
    rw [← hfk1] at hkmem
    exact ((mem_followupKeys _ _).mp hkmem).2
  have hYfk : followupKeys (List.foldl (fun ts nm => mapDelete ts nm)
      (mapSet s.tools (mintName t) (IDX.followupMintedConfig n s.callCount))
      ((followupKeys s.tools ++ [mintName t]).take
        ((followupKeys s.tools ++ [mintName t]).length - 3))) =
      lastN 3 (followupKeys s.tools ++ [mintName t]) := by
    rw [followupKeys_fold_delete _ _ hsub, hfk1, erase_take_fold]
    rfl
  by_cases h5 : s.callCount % 5 = 0
  · simp only [if_pos h5]
    by_cases h3 : s.callCount % 3 = 0
    · simp only [if_pos h3]
      rw [followupKeys_mapSet_false _ _ _ (history_not_followupKey _),
        followupKeys_mapSet_false _ _ _ (milestone_not_followupKey _)]
      exact hYfk
    · simp only [if_neg h3]
      rw [followupKeys_mapSet_false _ _ _ (milestone_not_followupKey _)]
      exact hYfk
  · simp only [if_neg h5]
    by_cases h3 : s.callCount % 3 = 0
    · simp only [if_pos h3]
      rw [followupKeys_mapSet_false _ _ _ (history_not_followupKey _)]
      exact hYfk
    · simp only [if_neg h3]
      exact hYfk

theorem lastN3_snoc_absorb (done : List String) (m : String) :
    lastN 3 (lastN 3 done ++ [m]) = lastN 3 (done ++ [m]) := by
  by_cases h : done.length ≤ 3
  · rw [lastN_of_length_le 3 done h]
  · have hlen3 : (lastN 3 done).length = 3 := by
      rw [lastN_three_len]
      omega
    rw [lastN_three_snoc done m, lastN_three_snoc (lastN 3 done) m]
    rw [if_neg (by omega : ¬ done.length ≤ 2),
      if_neg (by rw [hlen3]; omega : ¬ (lastN 3 done).length ≤ 2)]
    rw [lastN_of_length_le 3 (lastN 3 done) (by omega)]

theorem runOk_followup_inv (steps : List (String × Option Args × Nat)) :
    ∀ (s : ServerState) (done : List String) (s' : ServerState),
    followupKeys s.tools = lastN 3 done →
    (done ++ steps.map (fun st => mintName st.2.2)).Pairwise
      (fun a b => jsStrLt a b = true) →
    IDX.runOk s steps = some s' →
    followupKeys s'.tools =
      lastN 3 (done ++ steps.map (fun st => mintName st.2.2)) := by
  induction steps with
  | nil =>
    intro s done s' hfk _ hrun
    simp only [IDX.runOk, Option.some.injEq] at hrun
    subst hrun
    simpa using hfk
  | cons step rest ih =>
    obtain ⟨n, a, t⟩ := step
    intro s done s' hfk hpw hrun
    simp only [IDX.runOk] at hrun
    cases hget : mapGet s.tools n with
    | none => simp [hget] at hrun
    | some tool =>
      simp only [hget] at hrun
      cases hh : tool.handler (view { s with callCount := s.callCount + 1 })
          (a.getD {}) with
      | error msg => simp [hh] at hrun
      | ok r =>
        simp only [hh] at hrun
        have hdone : done.Pairwise (fun a b => jsStrLt a b = true) :=
          (List.pairwise_append.mp hpw).1
        have hless1 : ∀ x ∈ lastN 3 done, jsStrLt x (mintName t) = true := by
          intro x hx
          have hxdone : x ∈ done := (lastN_sublist 3 done).mem hx
          have hmm : mintName t ∈
              ((n, a, t) :: rest).map (fun st => mintName st.2.2) := by
            simp
          exact (List.pairwise_append.mp hpw).2.2 x hxdone _ hmm
        have hsorted1 : (followupKeys s.tools).Pairwise
            (fun a b => jsStrLt a b = true) := by
          rw [hfk]
          exact hdone.sublist (lastN_sublist 3 done)
        have hless1' : ∀ x ∈ followupKeys s.tools,
            jsStrLt x (mintName t) = true := by
          rw [hfk]
          exact hless1
        have hfk1 : followupKeys { s with callCount := s.callCount + 1 }.tools =
            lastN 3 done := hfk
        have hpass := update_followup_pass { s with callCount := s.callCount + 1 }
          n t true (by rw [hfk1]; exact hdone.sublist (lastN_sublist 3 done))
          (by rw [hfk1]; exact hless1)
        rw [hfk1, lastN3_snoc_absorb] at hpass
        have hpw' : ((done ++ [mintName t]) ++ rest.map
            (fun st => mintName st.2.2)).Pairwise
            (fun a b => jsStrLt a b = true) := by
          rw [List.append_assoc, List.singleton_append]
          exact hpw
        have hfin := ih _ (done ++ [mintName t]) s' hpass hpw' hrun
        rw [hfin, List.append_assoc, List.singleton_append]
        simp only [List.map_cons]

theorem runOk_callCount (steps : List (String × Option Args × Nat)) :
    ∀ (s s' : ServerState), IDX.runOk s steps = some s' →
    s'.callCount = s.callCount + steps.length := by
  induction steps with
  | nil =>
    intro s s' h
    simp only [IDX.runOk, Option.some.injEq] at h
    subst h
    simp
  | cons step rest ih =>
    obtain ⟨n, a, t⟩ := step
    intro s s' h
    simp only [IDX.runOk] at h
    cases hget : mapGet s.tools n with
    | none => simp [hget] at h
    | some tool =>
      simp only [hget] at h
      cases hh : tool.handler (view { s with callCount := s.callCount + 1 })
          (a.getD {}) with
      | error msg => simp [hh] at h
      | ok r =>
        simp only [hh] at h
        have hrec := ih _ _ h
        rw [hrec, callCount_update_IDX]
        simp only [List.length_cons]
        omega

theorem milestone_starts_milestone (m : Nat) :
    jsStartsWith (milestoneName m) "milestone_" = true := by
  show isLeadOf "milestone_".data ("milestone_" ++ toString m).data = true
  rw [String.data_append]
  exact isLeadOf_append _ _

theorem historyName_ne_milestoneName (n m : Nat) :
    historyName n ≠ milestoneName m := by
  intro heq
  have h1 := history_not_milestone n
  rw [heq, milestone_starts_milestone] at h1
  exact absurd h1 (by decide)

/-- C2: for every session and every identifier absent from the Registry at
the start of the call, `invoke` yields the protocol-level `MethodNotFound`
fault (not an `isError` response) and returns the state completely
unchanged: same registry, same counter, same notification log — no mutation
pass, no notification. Holds for both server variants. -/
theorem c2_not_found_unchanged (s : ServerState) (n : String) (a : Option Args)
    (t : Nat) (ok : Bool) (h : mapGet s.tools n = none) :
    DMS.callTool s n a ok = (.notFound ("Tool '" ++ n ++ "' not found"), s) ∧
    IDX.callTool s n a t ok = (.notFound ("Tool '" ++ n ++ "' not found"), s) := by
  constructor
  · simp [DMS.callTool, h]
  · simp [IDX.callTool, h]

/-- Witness for C2: invoking the unknown identifier `nope` on each fresh
session faults with `MethodNotFound` and leaves the state untouched. -/
theorem c2_not_found_unchanged_witness :
    DMS.callTool DMS.initState "nope" none true =
      (.notFound "Tool 'nope' not found", DMS.initState) ∧
    IDX.callTool IDX.initState "nope" none 0 true =
      (.notFound "Tool 'nope' not found", IDX.initState) :=
  ⟨(c2_not_found_unchanged DMS.initState "nope" none 0 true rfl).1,
   (c2_not_found_unchanged IDX.initState "nope" none 0 true rfl).2⟩

/-- C1 (amended): when the invoked handler signals an error, the dispatcher
catches it and answers with an `isError` response carrying a readable
message, and the counter has already been incremented — but, the `catch`
sitting around the whole `try` body, `updateToolsAfterCall` is skipped: the
final state is exactly the input state with only the counter bumped (no
registry mutation, no notification). Holds for both server variants. -/
theorem c1_handler_error_amended (s : ServerState) (n : String) (a : Option Args)
    (t : Nat) (ok : Bool) (tool : ToolConfig) (msg : String)
    (hget : mapGet s.tools n = some tool)
    (herr : tool.handler (view { s with callCount := s.callCount + 1 })
      (a.getD {}) = .error msg) :
    DMS.callTool s n a ok =
      (.response { content := ["Error executing " ++ n ++ ": " ++ msg],
                   isError := true },
       { s with callCount := s.callCount + 1 }) ∧
    IDX.callTool s n a t ok =
      (.response { content := ["Error executing " ++ n ++ ": " ++ msg],
                   isError := true },
       { s with callCount := s.callCount + 1 }) := by
  constructor
  · simp [DMS.callTool, hget, herr]
  · simp [IDX.callTool, hget, herr]

/-- Witness for C1's amended statement: a registry holding the throwing
tool `boom`, dispatched once. -/
theorem c1_handler_error_amended_witness :
    DMS.callTool cexState "boom" none true =
      (.response { content := ["Error executing boom: boom"], isError := true },
       { cexState with callCount := 1 }) ∧
    IDX.callTool cexState "boom" none 777 true =
      (.response { content := ["Error executing boom: boom"], isError := true },
       { cexState with callCount := 1 }) :=
  c1_handler_error_amended cexState "boom" none 777 true boomTool "boom" rfl rfl

/-- Counterexample to C1 as stated: dispatching the erroring tool `boom` on
the sliding-window server does return an `isError` response and does bump
the counter, but the Mutation Policy Engine does not run: the registry is
unchanged (`["boom"]`) and no notification is logged, whereas an actual
mutation pass on the post-increment state would have minted
`followup_777`. -/
theorem c1_handler_error_counterexample :
    (IDX.callTool cexState "boom" none 777 true).1 =
      .response { content := ["Error executing boom: boom"], isError := true } ∧
    (IDX.callTool cexState "boom" none 777 true).2.callCount = 1 ∧
    keysOf (IDX.callTool cexState "boom" none 777 true).2.tools = ["boom"] ∧
    (IDX.callTool cexState "boom" none 777 true).2.sent = [] ∧
    keysOf (IDX.updateToolsAfterCall { cexState with callCount := 1 }
      "boom" 777 true).tools = ["boom", mintName 777] := by
  decide

/-- C3: on a fresh unlock-policy session (registry = {greet}), one
`greet {name: "Alice"}` call answers with a greeting mentioning
"Hello, Alice!", grows the registry from 1 descriptor to exactly
{greet, calculate, get_status, followup} (size 4), and logs exactly one
change notification. -/
theorem c3_unlock_on_first_greet :
    DMS.initState.tools.length = 1 ∧
    DMS.initState.sent = [] ∧
    (DMS.callTool DMS.initState "greet" (some { name := some "Alice" }) true).1 =
      .response { content :=
        ["Hello, Alice! This server has been called 1 times."], isError := false } ∧
    isLeadOf "Hello, Alice!".data
      "Hello, Alice! This server has been called 1 times.".data = true ∧
    keysOf (DMS.callTool DMS.initState "greet"
      (some { name := some "Alice" }) true).2.tools =
      ["greet", "calculate", "get_status", "followup"] ∧
    (DMS.callTool DMS.initState "greet"
      (some { name := some "Alice" }) true).2.tools.length = 4 ∧
    (DMS.callTool DMS.initState "greet"
      (some { name := some "Alice" }) true).2.sent = [true] ∧
    (DMS.callTool DMS.initState "greet"
      (some { name := some "Alice" }) true).2.callCount = 1 := by
  decide

/-- C4 is violated by the code: the minted identifier is
`followup_${Date.now()}`, derived from the wall clock and not from the
session counter. Two successful dispatches within the same millisecond
(`Date.now() = 1000` both times) drive the counter to 2 yet leave a single
minted identifier `followup_1000` — the second mint overwrites the first,
so minted identifiers are not unique over the session's lifetime. -/
theorem c4_wallclock_collision :
    (IDX.callTool IDX.initState "greet" none 1000 true).2.callCount = 1 ∧
    (IDX.callTool (IDX.callTool IDX.initState "greet" none 1000 true).2
      "greet" none 1000 true).2.callCount = 2 ∧
    followupKeys (IDX.callTool IDX.initState "greet" none 1000 true).2.tools =
      [mintName 1000] ∧
    followupKeys (IDX.callTool (IDX.callTool IDX.initState "greet" none 1000 true).2
      "greet" none 1000 true).2.tools = [mintName 1000] ∧
    mintName 1000 = "followup_1000" := by
  decide

/-- C5 (amended): after any run of 10 successful dispatches on a fresh
sliding-window session whose minted names are strictly increasing in JS
string order (distinct `Date.now()` millisecond values of equal width — the
hypothesis forced by the same-millisecond counterexample below), the
counter is 10, the registry holds exactly the minted follow-up descriptors
of the last 3 dispatches (hence at most 3), and every older minted
identifier is absent. -/
theorem c5_sliding_window (steps : List (String × Option Args × Nat))
    (s' : ServerState)
    (hlen : steps.length = 10)
    (hpw : (steps.map (fun st => mintName st.2.2)).Pairwise
      (fun a b => jsStrLt a b = true))
    (hrun : IDX.runOk IDX.initState steps = some s') :
    s'.callCount = 10 ∧
    followupKeys s'.tools = lastN 3 (steps.map (fun st => mintName st.2.2)) ∧
    (followupKeys s'.tools).length ≤ 3 ∧
    (∀ x ∈ (steps.map (fun st => mintName st.2.2)).take (steps.length - 3),
      x ∉ followupKeys s'.tools) := by
  have hcount := runOk_callCount steps _ _ hrun
  have hinv := runOk_followup_inv steps IDX.initState [] s' (by decide)
    (by simpa using hpw) hrun
  rw [List.nil_append] at hinv
  refine ⟨by rw [hcount, hlen]; rfl, hinv,
    by rw [hinv]; exact lastN_length_le _ _, ?_⟩
  intro x hx hxin
  rw [hinv] at hxin
  have hnd : (steps.map (fun st => mintName st.2.2)).Nodup := by
    refine List.Pairwise.imp ?_ hpw
    intro a b hab heq
    subst heq
    rw [jsStrLt_irrefl] at hab
    exact absurd hab (by decide)
  have hsplit := List.take_append_drop (steps.length - 3)
    (steps.map (fun st => mintName st.2.2))
  have hnd2 : ((steps.map (fun st => mintName st.2.2)).take (steps.length - 3) ++
      (steps.map (fun st => mintName st.2.2)).drop (steps.length - 3)).Nodup := by
    rw [hsplit]
    exact hnd
  have hdisj := (List.nodup_append.mp hnd2).2.2
  have hxdrop : x ∈ (steps.map (fun st => mintName st.2.2)).drop
      (steps.length - 3) := by
    have hlm : (steps.map (fun st => mintName st.2.2)).length = steps.length :=
      List.length_map _ _
    have : x ∈ (steps.map (fun st => mintName st.2.2)).drop
        ((steps.map (fun st => mintName st.2.2)).length - 3) := hxin
    rw [hlm] at this
    exact this
  exact hdisj hx hxdrop

/-- Witness for C5: the ten concrete `greet` dispatches of `c5steps` leave
counter 10 and exactly the last three minted follow-up descriptors. -/
theorem c5_sliding_window_witness :
    c5steps.length = 10 ∧
    c5final.callCount = 10 ∧
    followupKeys c5final.tools =
      ["followup_1000000008", "followup_1000000009", "followup_1000000010"] := by
  have hrun : IDX.runOk IDX.initState c5steps = some c5final := rfl
  have h := c5_sliding_window c5steps c5final rfl (by decide) hrun
  exact ⟨rfl, h.1, by rw [h.2.1]; decide⟩

/-- Counterexample to C5 as stated ("any sequence of 10 successful
invocations"): when the last two of the ten dispatches share the
`Date.now()` millisecond 1008, every dispatch still succeeds and the
counter reaches 10, but the second `followup_1008` mint overwrites the
first, the pruning pass finds only 3 follow-up keys and removes nothing,
and `followup_1006` stays in the registry — an identifier minted 7th of 10,
not among the last 3 mints by sequence, so "the retained ones are the most
recently minted by sequence, and all older minted follow-up descriptors are
absent" fails on the code. (This is the same wall-clock defect as C4.) -/
theorem c5_sliding_window_counterexample :
    (IDX.runOk IDX.initState c5badSteps).isSome = true ∧
    c5badSteps.length = 10 ∧
    c5badFinal.callCount = 10 ∧
    followupKeys c5badFinal.tools =
      ["followup_1006", "followup_1007", "followup_1008"] ∧
    "followup_1006" ∈ (c5badSteps.map (fun st => mintName st.2.2)).take 7 ∧
    "followup_1006" ∉ lastN 3 (c5badSteps.map (fun st => mintName st.2.2)) := by
  decide

/-- C6: on every successful sliding-window dispatch, when the
post-increment counter is divisible by 5 the mutation pass installs a
descriptor under `milestone_<count>` whose description cites that exact
count, and when it is not divisible no milestone-named descriptor is added
(the milestone key set is unchanged). -/
theorem c6_milestone_modulus (s : ServerState) (n : String) (a : Option Args)
    (t : Nat) (ok : Bool) (tool : ToolConfig)
    (hget : mapGet s.tools n = some tool)
    (hok : ∃ r, tool.handler (view { s with callCount := s.callCount + 1 })
      (a.getD {}) = Except.ok r) :
    ((s.callCount + 1) % 5 = 0 →
      ∃ cfg, mapGet (IDX.callTool s n a t ok).2.tools
          (milestoneName (s.callCount + 1)) = some cfg ∧
        cfg.description = "Milestone celebration tool for reaching " ++
          toString (s.callCount + 1) ++ " calls!") ∧
    ((s.callCount + 1) % 5 ≠ 0 →
      milestoneKeys (IDX.callTool s n a t ok).2.tools = milestoneKeys s.tools) := by
  obtain ⟨r, hr⟩ := hok
  simp only [IDX.callTool, hget, hr]
  simp only [IDX.updateToolsAfterCall, tools_notifyToolsChanged,
    addTool_false, removals_fold_tools]
  constructor
  · intro h5
    simp only [if_pos h5]
    by_cases h3 : (s.callCount + 1) % 3 = 0
    · simp only [if_pos h3]
      refine ⟨IDX.milestoneConfig (s.callCount + 1), ?_, rfl⟩
      rw [mapGet_mapSet_ne _ _ _ _ (historyName_ne_milestoneName _ _).symm]
      exact mapGet_mapSet_self _ _ _
    · simp only [if_neg h3]
      exact ⟨IDX.milestoneConfig (s.callCount + 1), mapGet_mapSet_self _ _ _, rfl⟩
  · intro h5
    simp only [if_neg h5]
    have hrs : ∀ k ∈ (jsSort (List.filter isFollowupKey (keysOf (mapSet s.tools
        (mintName t) (IDX.followupMintedConfig n (s.callCount + 1)))))).take
        ((List.filter isFollowupKey (keysOf (mapSet s.tools (mintName t)
          (IDX.followupMintedConfig n (s.callCount + 1))))).length - 3),
        isFollowupKey k = true := by
      intro k hk
      have h1 : k ∈ jsSort (List.filter isFollowupKey (keysOf (mapSet s.tools
          (mintName t) (IDX.followupMintedConfig n (s.callCount + 1))))) :=
        List.take_subset _ _ hk
      rw [mem_jsSort] at h1
      exact (List.mem_filter.mp h1).2
    by_cases h3 : (s.callCount + 1) % 3 = 0
    · simp only [if_pos h3]
      rw [milestoneKeys_mapSet_false _ _ _ (history_not_milestone _),
        milestoneKeys_fold_delete _ _ hrs,
        milestoneKeys_mapSet_false _ _ _
          (followupKey_not_milestone _ (mint_isFollowupKey t))]
    · simp only [if_neg h3]
      rw [milestoneKeys_fold_delete _ _ hrs,
        milestoneKeys_mapSet_false _ _ _
          (followupKey_not_milestone _ (mint_isFollowupKey t))]

/-- Witness for C6: with the counter at 4, one more `greet` reaches 5 and
installs `milestone_5` with the matching description; from the fresh
session (counter reaching 1), the milestone key set stays empty. -/
theorem c6_milestone_modulus_witness :
    (∃ cfg, mapGet (IDX.callTool
        { tools := IDX.initState.tools, callCount := 4, sent := [] }
        "greet" none 50 true).2.tools (milestoneName 5) = some cfg ∧
      cfg.description = "Milestone celebration tool for reaching 5 calls!") ∧
    milestoneKeys (IDX.callTool IDX.initState "greet" none 50 true).2.tools =
      milestoneKeys IDX.initState.tools := by
  constructor
  · exact (c6_milestone_modulus
      { tools := IDX.initState.tools, callCount := 4, sent := [] }
      "greet" none 50 true greetConfig rfl ⟨_, rfl⟩).1 (by decide)
  · exact (c6_milestone_modulus IDX.initState
      "greet" none 50 true greetConfig rfl ⟨_, rfl⟩).2 (by decide)

/-- C7: the invocation counter starts at 0 in both variants; a dispatch
leaves it unchanged exactly when the identifier is absent (`MethodNotFound`)
and increments it by exactly 1 otherwise (successful or handler-error
dispatch); hence no dispatch ever decreases it; and on a successful
dispatch the mutation pass runs on the state whose counter has already been
incremented. -/
theorem c7_counter_semantics :
    DMS.initState.callCount = 0 ∧ IDX.initState.callCount = 0 ∧
    (∀ (s : ServerState) (n : String) (a : Option Args) (ok : Bool),
      (DMS.callTool s n a ok).2.callCount =
        if (mapGet s.tools n).isSome then s.callCount + 1 else s.callCount) ∧
    (∀ (s : ServerState) (n : String) (a : Option Args) (t : Nat) (ok : Bool),
      (IDX.callTool s n a t ok).2.callCount =
        if (mapGet s.tools n).isSome then s.callCount + 1 else s.callCount) ∧
    (∀ (s : ServerState) (n : String) (a : Option Args) (ok : Bool),
      s.callCount ≤ (DMS.callTool s n a ok).2.callCount) ∧
    (∀ (s : ServerState) (n : String) (a : Option Args) (t : Nat) (ok : Bool),
      s.callCount ≤ (IDX.callTool s n a t ok).2.callCount) ∧
    (∀ (s : ServerState) (n : String) (a : Option Args) (ok : Bool)
      (tool : ToolConfig) (r : ToolResult),
      mapGet s.tools n = some tool →
      tool.handler (view { s with callCount := s.callCount + 1 })
        (a.getD {}) = Except.ok r →
      (DMS.callTool s n a ok).2 =
        DMS.updateToolsAfterCall { s with callCount := s.callCount + 1 } n ok) ∧
    (∀ (s : ServerState) (n : String) (a : Option Args) (t : Nat) (ok : Bool)
      (tool : ToolConfig) (r : ToolResult),
      mapGet s.tools n = some tool →
      tool.handler (view { s with callCount := s.callCount + 1 })
        (a.getD {}) = Except.ok r →
      (IDX.callTool s n a t ok).2 =
        IDX.updateToolsAfterCall { s with callCount := s.callCount + 1 } n t ok) := by
  have hdms : ∀ (s : ServerState) (n : String) (a : Option Args) (ok : Bool),
      (DMS.callTool s n a ok).2.callCount =
        if (mapGet s.tools n).isSome then s.callCount + 1 else s.callCount := by
    intro s n a ok
    cases hget : mapGet s.tools n with
    | none => simp [DMS.callTool, hget]
    | some tool =>
      cases hh : tool.handler (view { s with callCount := s.callCount + 1 })
          (a.getD {}) with
      | error msg => simp [DMS.callTool, hget, hh]
      | ok r =>
        simp only [DMS.callTool, hget, hh, Option.isSome_some, if_true]
        rw [callCount_update_DMS]
  have hidx : ∀ (s : ServerState) (n : String) (a : Option Args) (t : Nat)
      (ok : Bool), (IDX.callTool s n a t ok).2.callCount =
        if (mapGet s.tools n).isSome then s.callCount + 1 else s.callCount := by
    intro s n a t ok
    cases hget : mapGet s.tools n with
    | none => simp [IDX.callTool, hget]
    | some tool =>
      cases hh : tool.handler (view { s with callCount := s.callCount + 1 })
          (a.getD {}) with
      | error msg => simp [IDX.callTool, hget, hh]
      | ok r =>
        simp only [IDX.callTool, hget, hh, Option.isSome_some, if_true]
        rw [callCount_update_IDX]
  refine ⟨rfl, rfl, hdms, hidx, ?_, ?_, ?_, ?_⟩
  · intro s n a ok
    rw [hdms s n a ok]
    by_cases h : (mapGet s.tools n).isSome <;> simp [h]
  · intro s n a t ok
    rw [hidx s n a t ok]
    by_cases h : (mapGet s.tools n).isSome <;> simp [h]
  · intro s n a ok tool r hget hh
    simp [DMS.callTool, hget, hh]
  · intro s n a t ok tool r hget hh
    simp [IDX.callTool, hget, hh]

/-- Witness for C7: the first `greet` on each fresh session moves the
counter from 0 to 1, and the sliding-window mutation pass runs on the
already-incremented state. -/
theorem c7_counter_semantics_witness :
    (DMS.callTool DMS.initState "greet" none true).2.callCount = 1 ∧
    (IDX.callTool IDX.initState "greet" none 7 true).2 =
      IDX.updateToolsAfterCall { IDX.initState with callCount := 1 }
        "greet" 7 true := by
  obtain ⟨-, -, hdms, -, -, -, -, hidxmut⟩ := c7_counter_semantics
  constructor
  · rw [hdms DMS.initState "greet" none true]
    decide
  · exact hidxmut IDX.initState "greet" none 7 true greetConfig _ rfl rfl

/-- C8: the unlock-variant arithmetic evaluator returns "4" on "8 / 2" and
the division-by-zero message on "8 / 0"; dispatched through the `calculate`
tool, the latter comes back as ordinary result text with `isError` absent —
it never raises, so it never reaches the dispatcher's handler-failure
`catch`. -/
theorem c8_evaluator_division :
    DMS.evaluateExpression (some "8 / 2") = "4" ∧
    DMS.evaluateExpression (some "8 / 0") = "Cannot divide by zero" ∧
    (DMS.callTool
      (DMS.callTool DMS.initState "greet" (some { name := some "Al" }) true).2
      "calculate" (some { expression := some "8 / 0" }) true).1 =
      .response { content := ["Calculation: 8 / 0 = Cannot divide by zero"],
                  isError := false } := by
  decide

/-- C9: a failed notification delivery is absorbed inside
`notifyToolsChanged` (only the attempt log differs): for any dispatch, the
response, the resulting registry and the resulting counter are identical
whether delivery succeeds or fails — the caller sees no error and the
mutation already applied is not rolled back. Holds for both variants. -/
theorem c9_notification_failure_harmless :
    (∀ (s : ServerState) (ok : Bool),
      (notifyToolsChanged s ok).tools = s.tools ∧
      (notifyToolsChanged s ok).callCount = s.callCount) ∧
    (∀ (s : ServerState) (n : String) (a : Option Args) (t : Nat),
      (IDX.callTool s n a t false).1 = (IDX.callTool s n a t true).1 ∧
      (IDX.callTool s n a t false).2.tools = (IDX.callTool s n a t true).2.tools ∧
      (IDX.callTool s n a t false).2.callCount =
        (IDX.callTool s n a t true).2.callCount) ∧
    (∀ (s : ServerState) (n : String) (a : Option Args),
      (DMS.callTool s n a false).1 = (DMS.callTool s n a true).1 ∧
      (DMS.callTool s n a false).2.tools = (DMS.callTool s n a true).2.tools ∧
      (DMS.callTool s n a false).2.callCount =
        (DMS.callTool s n a true).2.callCount) := by
  refine ⟨fun s ok => ⟨rfl, rfl⟩, fun s n a t => ?_, fun s n a => ?_⟩
  · cases hget : mapGet s.tools n with
    | none => simp [IDX.callTool, hget]
    | some tool =>
      cases hh : tool.handler (view { s with callCount := s.callCount + 1 })
          (a.getD {}) with
      | error msg => simp [IDX.callTool, hget, hh]
      | ok r =>
        simp only [IDX.callTool, hget, hh]
        exact ⟨trivial, tools_update_IDX_ok _ _ _ _,
          by rw [callCount_update_IDX, callCount_update_IDX]⟩
  · cases hget : mapGet s.tools n with
    | none => simp [DMS.callTool, hget]
    | some tool =>
      cases hh : tool.handler (view { s with callCount := s.callCount + 1 })
          (a.getD {}) with
      | error msg => simp [DMS.callTool, hget, hh]
      | ok r =>
        simp only [DMS.callTool, hget, hh]
        exact ⟨trivial, tools_update_DMS_ok _ _ _,
          by rw [callCount_update_DMS, callCount_update_DMS]⟩

/-- C10: a second `greet` on the unlock-policy session (the unlock set
already present) overwrites `calculate`, `get_status` and `followup` in
place — the registry's key list is unchanged — yet the dispatch still logs
exactly one more change notification: notification is unconditional in the
`greet` branch, not contingent on the identifier set changing. -/
theorem c10_second_greet_overwrite (a1 a2 : Option Args) (ok : Bool) :
    keysOf (DMS.callTool (DMS.callTool DMS.initState "greet" a1 true).2
        "greet" a2 ok).2.tools =
      keysOf (DMS.callTool DMS.initState "greet" a1 true).2.tools ∧
    (DMS.callTool (DMS.callTool DMS.initState "greet" a1 true).2
        "greet" a2 ok).2.sent.length =
      (DMS.callTool DMS.initState "greet" a1 true).2.sent.length + 1 := by
  constructor
  · rfl
  · rfl
